import Mathlib

/-!
Verification development for the range-aware video streaming endpoint
(`app/api/video_stream_service.py`).

The Python service is shallowly embedded: byte strings become `List Nat`,
`pathlib.Path` values become lists of components with an absolute flag,
the two `TTLCache` instances become association lists (a claim about a
request "within the TTL" is modelled by the entry being present in the
list), and the filesystem becomes a finite map from normalized absolute
paths to file contents plus an mtime.  `datetime` values are records of
calendar components compared lexicographically, exactly as the Python naive
`datetime` comparison does.  `hashlib.md5(...).hexdigest()` is an external
digest; it is modelled as an injective string map because every use in the
service depends only on string equality of the resulting etags.
-/

namespace Stream

/-- A byte string (`bytes` in Python); each element is one byte. -/
abbrev Bytes := List Nat

/-- A naive `datetime.datetime` with second resolution (the service never
produces sub-second components on the paths modelled here). -/
structure DateTime where
  year : Nat
  month : Nat
  day : Nat
  hour : Nat
  minute : Nat
  second : Nat
deriving Repr, DecidableEq

/-- Monotone encoding of the component tuple; Python compares naive
datetimes lexicographically on (year, month, day, hour, minute, second),
which this encoding preserves for in-range components. -/
def DateTime.key (d : DateTime) : Nat :=
  ((((d.year * 13 + d.month) * 32 + d.day) * 24 + d.hour) * 60 + d.minute) * 60 + d.second

/-- Comparison `a <= b` on naive datetimes. -/
def DateTime.le (a b : DateTime) : Bool :=
  a.key ≤ b.key

/-- Left-pad a numeral to two digits, as Python `%02d`. -/
def pad2 (n : Nat) : String :=
  if n < 10 then "0" ++ toString n else toString n

/-- Left-pad a numeral to four digits, as Python `%04d`. -/
def pad4 (n : Nat) : String :=
  if n < 10 then "000" ++ toString n
  else if n < 100 then "00" ++ toString n
  else if n < 1000 then "0" ++ toString n
  else toString n

/-- Python `datetime.isoformat()` for a datetime with zero microseconds:
`YYYY-MM-DDTHH:MM:SS`. -/
def isoString (d : DateTime) : String :=
  pad4 d.year ++ "-" ++ pad2 d.month ++ "-" ++ pad2 d.day ++ "T" ++
    pad2 d.hour ++ ":" ++ pad2 d.minute ++ ":" ++ pad2 d.second

/-- Three-letter month names used by `%b` in the C locale. -/
def monthName (m : Nat) : String :=
  match m with
  | 1 => "Jan" | 2 => "Feb" | 3 => "Mar" | 4 => "Apr" | 5 => "May" | 6 => "Jun"
  | 7 => "Jul" | 8 => "Aug" | 9 => "Sep" | 10 => "Oct" | 11 => "Nov" | _ => "Dec"

/-- The Sakamoto day-of-week algorithm (0 = Sunday), used to render `%a`. -/
def dayOfWeek (y m d : Nat) : Nat :=
  let t := [0, 3, 2, 5, 0, 3, 5, 1, 4, 6, 2, 4]
  let y := if m < 3 then y - 1 else y
  (y + y / 4 + y / 400 + t.getD (m - 1) 0 + d + (7 - (y / 100) % 7)) % 7

/-- Three-letter weekday names used by `%a` in the C locale (0 = Sunday). -/
def weekdayName (w : Nat) : String :=
  match w with
  | 0 => "Sun" | 1 => "Mon" | 2 => "Tue" | 3 => "Wed" | 4 => "Thu" | 5 => "Fri"
  | _ => "Sat"

/-- Python `datetime.strftime("%a, %d %b %Y %H:%M:%S GMT")`. -/
def formatRFC1123 (d : DateTime) : String :=
  weekdayName (dayOfWeek d.year d.month d.day) ++ ", " ++ pad2 d.day ++ " " ++
    monthName d.month ++ " " ++ pad4 d.year ++ " " ++ pad2 d.hour ++ ":" ++
    pad2 d.minute ++ ":" ++ pad2 d.second ++ " GMT"

/-- ASCII lowercasing, as the `re.IGNORECASE` matching of `_strptime`
effectively applies to names and literals. -/
def lowerAscii (c : Char) : Char :=
  match c with
  | 'A' => 'a' | 'B' => 'b' | 'C' => 'c' | 'D' => 'd' | 'E' => 'e' | 'F' => 'f'
  | 'G' => 'g' | 'H' => 'h' | 'I' => 'i' | 'J' => 'j' | 'K' => 'k' | 'L' => 'l'
  | 'M' => 'm' | 'N' => 'n' | 'O' => 'o' | 'P' => 'p' | 'Q' => 'q' | 'R' => 'r'
  | 'S' => 's' | 'T' => 't' | 'U' => 'u' | 'V' => 'v' | 'W' => 'w' | 'X' => 'x'
  | 'Y' => 'y' | 'Z' => 'z'
  | c => c

/-- A regex `\s` whitespace character (Python `[ \t\n\r\f\v]`). -/
def isPySpace (c : Char) : Bool :=
  c = ' ' ∨ c = '\t' ∨ c = '\n' ∨ c = '\r' ∨ c = '\x0b' ∨ c = '\x0c'

/-- Drop leading whitespace. -/
def skipSpaces : List Char → List Char
  | c :: rest => if isPySpace c then skipSpaces rest else c :: rest
  | [] => []

/-- A whitespace run in the format compiles to the regex `\s+`: at least one
whitespace character, consumed greedily (every token following `\s+` in this
format starts with a non-whitespace character, so greedy is exact). -/
def skipSpacesAtLeastOne : List Char → Option (List Char)
  | c :: rest => if isPySpace c then some (skipSpaces rest) else none
  | [] => none

/-- The maximal leading run of decimal digits and the remaining input. -/
def digitRun : List Char → List Char × List Char
  | c :: rest =>
    if c.isDigit then
      let p := digitRun rest
      (c :: p.1, p.2)
    else ([], c :: rest)
  | [] => ([], [])

/-- Numeric value of a digit run. -/
def natOfDigits (ds : List Char) : Nat :=
  ds.foldl (fun a c => a * 10 + (c.toNat - 48)) 0

/-- A one-or-two-digit numeric field bounded by `maxV` (the shape of the
`%d`/`%H`/`%M`/`%S` regex groups: one or two digits; a longer digit run can
never complete a match because the token after the group is a non-digit). -/
def field12 (cs : List Char) (maxV : Nat) : Option (Nat × List Char) :=
  let p := digitRun cs
  if (p.1.length = 1 ∨ p.1.length = 2) ∧ natOfDigits p.1 ≤ maxV then
    some (natOfDigits p.1, p.2)
  else none

/-- Month number from a lowercased `%b` month name (the `_strptime` regex is
built from lowercased locale names and matched case-insensitively). -/
def monthFromName (s : String) : Option Nat :=
  match s with
  | "jan" => some 1 | "feb" => some 2 | "mar" => some 3 | "apr" => some 4
  | "may" => some 5 | "jun" => some 6 | "jul" => some 7 | "aug" => some 8
  | "sep" => some 9 | "oct" => some 10 | "nov" => some 11 | "dec" => some 12
  | _ => none

/-- Lowercased weekday names accepted by `%a` (case-insensitively);
`strptime` checks membership but does not cross-check the weekday against
the date. -/
def weekdayNames : List String :=
  ["mon", "tue", "wed", "thu", "fri", "sat", "sun"]

/-- Leap years of the proleptic Gregorian calendar used by `datetime`. -/
def isLeapYear (y : Nat) : Bool :=
  (y % 4 = 0 ∧ y % 100 ≠ 0) ∨ y % 400 = 0

/-- Days in a month, as validated by the `datetime` constructor. -/
def daysInMonth (y m : Nat) : Nat :=
  if m = 2 then (if isLeapYear y then 29 else 28)
  else if m = 4 ∨ m = 6 ∨ m = 9 ∨ m = 11 then 30
  else 31

/-- Python `datetime.strptime(s, "%a, %d %b %Y %H:%M:%S GMT")`: `none`
models the `ValueError` escaping on a non-conforming value.  Faithful to the
`_strptime` regex plus the `datetime` constructor: names and the `GMT`
literal match case-insensitively; `%d`/`%H`/`%M`/`%S` are one or two digits
(`%d` in 1..31, `%H` in 0..23, `%M` in 0..59); `%Y` is exactly four digits
with year 0 rejected by the constructor; each whitespace run in the format
matches `\s+`; the whole string must be consumed (trailing text is
"unconverted data"); the day must exist in the month/year or the
constructor raises; the `%S` group also matches 60 and 61, which the
`datetime` constructor then rejects, so those too come out as `none`;
the parsed weekday name is never checked against the date. -/
def parseRFC1123 (s : String) : Option DateTime :=
  match s.data with
  | w1 :: w2 :: w3 :: ',' :: r0 =>
    if String.mk [lowerAscii w1, lowerAscii w2, lowerAscii w3] ∈ weekdayNames then
      match skipSpacesAtLeastOne r0 with
      | some r1 =>
        match field12 r1 31 with
        | some (day, r2) =>
          if 1 ≤ day then
            match skipSpacesAtLeastOne r2 with
            | some (m1 :: m2 :: m3 :: r4) =>
              match monthFromName
                  (String.mk [lowerAscii m1, lowerAscii m2, lowerAscii m3]) with
              | some month =>
                match skipSpacesAtLeastOne r4 with
                | some r5 =>
                  let py := digitRun r5
                  if py.1.length = 4 ∧ 1 ≤ natOfDigits py.1 then
                    match skipSpacesAtLeastOne py.2 with
                    | some r6 =>
                      match field12 r6 23 with
                      | some (hour, ':' :: r8) =>
                        match field12 r8 59 with
                        | some (minute, ':' :: r10) =>
                          match field12 r10 59 with
                          | some (second, r11) =>
                            match skipSpacesAtLeastOne r11 with
                            | some (g1 :: g2 :: g3 :: r13) =>
                              if lowerAscii g1 = 'g' ∧ lowerAscii g2 = 'm' ∧
                                  lowerAscii g3 = 't' ∧ r13 = [] ∧
                                  day ≤ daysInMonth (natOfDigits py.1) month then
                                some ⟨natOfDigits py.1, month, day, hour,
                                  minute, second⟩
                              else none
                            | _ => none
                          | _ => none
                        | _ => none
                      | _ => none
                    | none => none
                  else none
                | none => none
              | none => none
            | _ => none
          else none
        | none => none
      | none => none
    else none
  | _ => none

/-- Model of `hashlib.md5(s.encode()).hexdigest()`: an external digest, modelled as an
injective string map because the service only ever compares etags for string
equality. -/
def md5Hex (s : String) : String :=
  "md5-" ++ s

/-! ## Paths (POSIX `pathlib.Path` semantics) -/

/-- A `pathlib.PurePosixPath`: an absolute flag plus the component list.
`pathlib` drops empty and `"."` components when parsing a path string and
keeps `".."` components verbatim. -/
structure PyPath where
  absolute : Bool
  parts : List String
deriving Repr, DecidableEq

/-- Split a character list at every occurrence of `sep` (Python
`str.split(sep)` semantics: empty pieces are kept). -/
def splitOnChar (sep : Char) : List Char → List (List Char)
  | [] => [[]]
  | c :: rest =>
    if c = sep then [] :: splitOnChar sep rest
    else
      match splitOnChar sep rest with
      | h :: t => (c :: h) :: t
      | [] => [[c]]

/-- Split a path string into `pathlib` components (empty and `"."` pieces
are dropped). -/
def splitPath (s : String) : List String :=
  ((splitOnChar '/' s.data).map (fun cs => String.mk cs)).filter
    (fun c => c ≠ "" ∧ c ≠ ".")

/-- The path string starts with the POSIX separator. -/
def startsWithSlash (s : String) : Bool :=
  match s.data with
  | '/' :: _ => true
  | _ => false

/-- Operator `Path.__truediv__`: joining with an absolute operand discards the left
side, otherwise the parsed components are appended. -/
def joinPath (p : PyPath) (s : String) : PyPath :=
  if startsWithSlash s then ⟨true, splitPath s⟩
  else ⟨p.absolute, p.parts ++ splitPath s⟩

/-- Accessor `Path.name`: the final component, `""` for a bare root. -/
def PyPath.name (p : PyPath) : String :=
  p.parts.getLastD ""

/-- Test that `Path.relative_to(root)` succeeds: a purely lexical check that the
anchor matches and the components of `root` are a leading segment of the
components of the path — `".."` components are NOT normalized away first. -/
def relativeToOk (p root : PyPath) : Bool :=
  p.absolute = root.absolute ∧ root.parts.isPrefixOf p.parts

/-- Lexical normalization of `".."` components, as the operating system
resolves them when a path is actually opened (symlink-free model; `".."` at
the filesystem root stays at the root). -/
def normalizeParts (parts : List String) : List String :=
  parts.foldl (fun acc c => if c = ".." then acc.dropLast else acc ++ [c]) []

/-! ## Filesystem and caches -/

/-- A regular file: contents plus `st_mtime` (already converted by
`datetime.fromtimestamp`). -/
structure FileEnt where
  content : Bytes
  mtime : DateTime
deriving Repr, DecidableEq

/-- The filesystem: a finite map from normalized absolute component lists to
regular files. -/
structure FS where
  files : List (List String × FileEnt)
deriving Repr, DecidableEq

/-- Association-list lookup (first binding wins). -/
def alookup {κ α : Type} [DecidableEq κ] (l : List (κ × α)) (k : κ) : Option α :=
  (l.find? (fun p => p.1 = k)).map (fun p => p.2)

/-- Association-list overwrite. -/
def ainsert {κ α : Type} [DecidableEq κ] (l : List (κ × α)) (k : κ) (v : α) :
    List (κ × α) :=
  (k, v) :: l.filter (fun p => ¬ p.1 = k)

/-- Model of `video_path.is_file()` and `open(video_path)`: the OS resolves `".."`
before consulting the filesystem; only absolute paths resolve in this model. -/
def fsLookup (fs : FS) (p : PyPath) : Option FileEnt :=
  if p.absolute then alookup fs.files (normalizeParts p.parts) else none

/-- One `VIDEO_META_CACHE` entry (the dict stored per key; `last_modified`
is stored as an ISO string and parsed back with `fromisoformat`, a round
trip, so it is kept structured here). -/
structure MetaEntry where
  etag : String
  lastModified : DateTime
  fileSize : Nat
deriving Repr, DecidableEq

/-- The two module-level caches.  TTL expiry and capacity eviction are
modelled by an entry simply being absent; "within the TTL" means present. -/
structure ServerState where
  metaCache : List (String × MetaEntry)
  chunkCache : List (String × Bytes)
deriving Repr, DecidableEq

/-- The metadata cache key `f"{filename}-{subfolder}"`; Python renders the
absent subfolder `None` as the literal string `"None"`. -/
def subfolderStr : Option String → String
  | none => "None"
  | some s => s

/-- The key `f"{filename}-{subfolder}"` of the metadata cache. -/
def metaKey (filename : String) (subfolder : Option String) : String :=
  filename ++ "-" ++ subfolderStr subfolder

/-! ## Byte streamers (`file_sender`, `file_sender_range`) -/

/-- Model of `file.read(n)` after the handle has advanced to `pos`: returns up to `n`
bytes, short only at end of file. -/
def readAt (content : Bytes) (pos n : Nat) : Bytes :=
  (content.drop pos).take n

/-- The read loop of `file_sender_range` after `seek(start)`, with explicit
fuel for structural recursion: while `start <= e`, read
`min(65536, e - start + 1)` bytes, stop on an empty read, advance `start`
by the bytes read; returns the accumulated chunk list.  Every iteration
consumes at least one unit of `e + 1 - start`, which is the fuel supplied
by `rangeChunks`, so the fuel never runs out before the loop exits. -/
def rangeChunksFuel : Nat → Bytes → Nat → Nat → List Bytes
  | 0, _, _, _ => []
  | fuel + 1, content, start, e =>
    if start ≤ e then
      let chunk := readAt content start (min 65536 (e - start + 1))
      if chunk = [] then []
      else chunk :: rangeChunksFuel fuel content (start + chunk.length) e
    else []

/-- The read loop of `file_sender_range` (see `rangeChunksFuel`). -/
def rangeChunks (content : Bytes) (start e : Nat) : List Bytes :=
  rangeChunksFuel (e + 1 - start) content start e

/-- The read loop of `file_sender`, with explicit fuel for structural
recursion: read 64 KiB at a time from `pos` until an empty read.  Every
iteration consumes at least one unit of `content.length - pos`, the fuel
supplied by `fullChunks`. -/
def fullChunksFuel : Nat → Bytes → Nat → List Bytes
  | 0, _, _ => []
  | fuel + 1, content, pos =>
    let chunk := readAt content pos 65536
    if chunk = [] then []
    else chunk :: fullChunksFuel fuel content (pos + chunk.length)

/-- The read loop of `file_sender` (see `fullChunksFuel`). -/
def fullChunks (content : Bytes) (pos : Nat) : List Bytes :=
  fullChunksFuel (content.length - pos) content pos

/-- The chunk-cache key `f"{video_path.name}-{start}-{end}"`. -/
def chunkKey (name : String) (s e : Nat) : String :=
  name ++ "-" ++ toString s ++ "-" ++ toString e

/-- Result of running one streamer generator to exhaustion: the chunks it
yields, the chunk cache it leaves behind, and whether it opened the file. -/
structure StreamRun where
  yielded : List Bytes
  chunkCache : List (String × Bytes)
  openedFile : Bool
deriving Repr, DecidableEq

/-- Generator `file_sender_range(video_path, start, end)` run to exhaustion.  Note the
cache hit test is `if cached := CHUNK_CACHE.get(cache_key):`, a truthiness
test, so a cached EMPTY blob behaves like a miss.  On a miss the accumulated
blob is stored iff its length is under `1024 * 1024` and is always yielded
whole, as a single chunk. -/
def fileSenderRange (cache : List (String × Bytes)) (name : String)
    (content : Bytes) (start e : Nat) : StreamRun :=
  let key := chunkKey name start e
  match alookup cache key with
  | some cached =>
    if cached ≠ [] then ⟨[cached], cache, false⟩
    else
      let blob := (rangeChunks content start e).flatten
      ⟨[blob], if blob.length < 1024 * 1024 then ainsert cache key blob else cache, true⟩
  | none =>
    let blob := (rangeChunks content start e).flatten
    ⟨[blob], if blob.length < 1024 * 1024 then ainsert cache key blob else cache, true⟩

/-- Generator `file_sender(video_path)` run to exhaustion (never touches the chunk
cache). -/
def fileSender (cache : List (String × Bytes)) (content : Bytes) : StreamRun :=
  ⟨fullChunks content 0, cache, true⟩

/-! ## The endpoint (`get_video`) -/

/-- Python `int(s)` for the substrings produced by splitting the `Range`
header on `"-"` (such substrings never contain a minus sign): digits with an
optional leading plus; `none` models the `ValueError` on anything else. -/
def pyIntOfString (s : String) : Option Nat :=
  let digits := match s.data with
    | '+' :: rest => rest
    | l => l
  if digits ≠ [] ∧ digits.all Char.isDigit then
    some (digits.foldl (fun acc c => acc * 10 + (c.toNat - 48)) 0)
  else none

/-- Test of `validate_filename`: `re.search(r"[\\/]", filename)` found a match. -/
def hasSeparator (filename : String) : Bool :=
  filename.data.any (fun c => c = '/' ∨ c = '\\')

/-- Model of `range_header.replace("bytes=", "")`: delete every occurrence of the
literal `"bytes="`, scanning left to right. -/
def stripBytesEq : List Char → List Char
  | 'b' :: 'y' :: 't' :: 'e' :: 's' :: '=' :: rest => stripBytesEq rest
  | c :: rest => c :: stripBytesEq rest
  | [] => []

/-- The joined path `VIDEO_DIR / subfolder / filename` when `subfolder` is truthy, else
`VIDEO_DIR / filename`. -/
def videoPath (root : PyPath) (filename : String) (subfolder : Option String) :
    PyPath :=
  match subfolder with
  | some s => if s ≠ "" then joinPath (joinPath root s) filename
              else joinPath root filename
  | none => joinPath root filename

/-- The HTTP outcome of one request, with the headers the claims talk
about.  `exn` models an exception that escapes the handler (for example the
`ValueError` from `strptime` or from `Range` parsing).  Streaming bodies are
run to exhaustion: `body` is the chunk sequence the generator yields. -/
inductive VideoResponse where
  | notModified
  | err (status : Nat) (detail : String)
  | exn (msg : String)
  | ranged (contentRange : String) (contentLength : Int) (contentType : String)
      (body : List Bytes)
  | full (contentLength : Nat) (contentType : String) (cacheControl : String)
      (etag : String) (lastModified : String) (body : List Bytes)
deriving Repr, DecidableEq

/-- One request as the handler sees it. -/
structure RequestR where
  filename : String
  subfolder : Option String
  rangeHeader : Option String
  ifNoneMatch : Option String
  ifModifiedSince : Option String
deriving Repr, DecidableEq

/-- The observable result of the handler: response, caches left behind, and
whether any streamer opened the video file. -/
structure StepResult where
  response : VideoResponse
  state : ServerState
  openedFile : Bool
deriving Repr, DecidableEq

/-- The `Range` branch of `get_video`: `range_header.replace("bytes=", "")`
then `split("-")` must give exactly two pieces (tuple unpack), `start` is
`int(start)`, `end` is `int(end)` when nonempty else `file_size - 1`; then
the 416 bound check and the 206 streaming response. -/
def rangeBranch (st : ServerState) (rh : String) (pathName : String)
    (content : Bytes) (fileSize : Nat) : StepResult :=
  match splitOnChar '-' (stripBytesEq rh.data) with
  | [a, b] =>
    match pyIntOfString (String.mk a) with
    | none => ⟨.exn "ValueError", st, false⟩
    | some start =>
      let endRes : Option Int :=
        if b = [] then some ((fileSize : Int) - 1)
        else (pyIntOfString (String.mk b)).map (fun n => (n : Int))
      match endRes with
      | none => ⟨.exn "ValueError", st, false⟩
      | some e =>
        if (start : Int) ≥ (fileSize : Int) ∨ e ≥ (fileSize : Int) then
          ⟨.err 416 "Requested range not satisfiable", st, false⟩
        else
          let run := fileSenderRange st.chunkCache pathName content start e.toNat
          ⟨.ranged
              ("bytes " ++ toString start ++ "-" ++ toString e ++ "/" ++
                toString fileSize)
              (e - (start : Int) + 1) "video/mp4" run.yielded,
            { st with chunkCache := run.chunkCache }, run.openedFile⟩
  | _ => ⟨.exn "ValueError", st, false⟩

/-- Body of `get_video` from `validate_filename` on (everything after the warm-cache
conditional block): validation, path join, `is_file`, the lexical
`relative_to` containment check, `stat`, metadata-cache refresh, then the
`Range` or full branch. -/
def getVideoMain (st : ServerState) (fs : FS) (root : PyPath) (req : RequestR) :
    StepResult :=
  if hasSeparator req.filename then ⟨.err 400 "Invalid filename", st, false⟩
  else
    let path := videoPath root req.filename req.subfolder
    match fsLookup fs path with
    | none => ⟨.err 404 "Video file not found", st, false⟩
    | some file =>
      if ¬ relativeToOk path root then ⟨.err 400 "Invalid file path", st, false⟩
      else
        let fileSize := file.content.length
        let lm := file.mtime
        let etag := md5Hex (toString fileSize ++ "-" ++ isoString lm)
        let st1 : ServerState :=
          { st with
            metaCache :=
              ainsert st.metaCache (metaKey req.filename req.subfolder)
                ⟨etag, lm, fileSize⟩ }
        match req.rangeHeader with
        | some rh =>
          if rh ≠ "" then rangeBranch st1 rh path.name file.content fileSize
          else
            let run := fileSender st1.chunkCache file.content
            ⟨.full fileSize "video/mp4" "public, max-age=300" etag
                (formatRFC1123 lm) run.yielded, st1, run.openedFile⟩
        | none =>
          let run := fileSender st1.chunkCache file.content
          ⟨.full fileSize "video/mp4" "public, max-age=300" etag
              (formatRFC1123 lm) run.yielded, st1, run.openedFile⟩

/-- Test `if_none_match and if_none_match == meta["etag"]`: the header is
present, truthy (non-empty) and exactly string-equal to the stored etag. -/
def inmMatches (inm : Option String) (etag : String) : Bool :=
  match inm with
  | some s => s ≠ "" ∧ s = etag
  | none => false

/-- The full `get_video` handler: the warm metadata-cache conditional block
(`If-None-Match` exact equality, then `If-Modified-Since` parsed with
`strptime` and compared `>=` against the stored `last_modified`), falling
through to `getVideoMain`.  Header values are Python-truthy-tested, so an
empty header string behaves like an absent header. -/
def getVideo (st : ServerState) (fs : FS) (root : PyPath) (req : RequestR) :
    StepResult :=
  match alookup st.metaCache (metaKey req.filename req.subfolder) with
  | some meta =>
    if inmMatches req.ifNoneMatch meta.etag then ⟨.notModified, st, false⟩
    else
      match req.ifModifiedSince with
      | some s =>
        if s ≠ "" then
          match parseRFC1123 s with
          | none => ⟨.exn "ValueError", st, false⟩
          | some d =>
            if meta.lastModified.le d then ⟨.notModified, st, false⟩
            else getVideoMain st fs root req
        else getVideoMain st fs root req
      | none => getVideoMain st fs root req
  | none => getVideoMain st fs root req

/-! ## Lemmas about the read loops -/

theorem rangeChunksFuel_flatten (fuel : Nat) :
    ∀ (content : Bytes) (start e : Nat), e + 1 - start ≤ fuel →
      (rangeChunksFuel fuel content start e).flatten =
        (content.drop start).take (e + 1 - start) := by
  induction fuel with
  | zero =>
    intro content start e h
    have h0 : e + 1 - start = 0 := by omega
    simp [rangeChunksFuel, h0]
  | succ n ih =>
    intro content start e h
    rw [rangeChunksFuel]
    by_cases hse : start ≤ e
    · rw [if_pos hse]
      by_cases hc : readAt content start (min 65536 (e - start + 1)) = []
      · rw [if_pos hc]
        have hnil : content.drop start = [] := by
          rcases List.take_eq_nil_iff.mp hc with h1 | h1
          · omega
          · exact h1
        rw [hnil]
        simp
      · rw [if_neg hc]
        rw [List.flatten_cons]
        have hlen : (readAt content start (min 65536 (e - start + 1))).length =
            min (min 65536 (e - start + 1)) (content.drop start).length := by
          simp [readAt, List.length_take]
        have hpos : 0 < (readAt content start (min 65536 (e - start + 1))).length :=
          List.length_pos.mpr hc
        rw [ih content (start + (readAt content start (min 65536 (e - start + 1))).length) e
          (by omega)]
        rw [show content.drop (start + (readAt content start
              (min 65536 (e - start + 1))).length) =
            (content.drop start).drop
              (readAt content start (min 65536 (e - start + 1))).length by
          rw [List.drop_drop]]
        have hLle : (readAt content start (min 65536 (e - start + 1))).length ≤
            e + 1 - start := by omega
        rw [show e + 1 - start =
            (readAt content start (min 65536 (e - start + 1))).length +
              (e + 1 - start - (readAt content start
                (min 65536 (e - start + 1))).length) by omega]
        rw [List.take_add]
        have htake : (content.drop start).take
            (readAt content start (min 65536 (e - start + 1))).length =
            readAt content start (min 65536 (e - start + 1)) := by
          simp only [readAt] at hlen ⊢
          rw [List.take_eq_take.mpr]
          omega
        rw [htake]
        congr 2
        omega
    · rw [if_neg hse]
      have h0 : e + 1 - start = 0 := by omega
      simp [h0]

/-- The accumulated range blob is exactly the requested slice, truncated at
end of file: `b"".join(chunks) == content[start : end + 1]`. -/
theorem rangeChunks_flatten (content : Bytes) (start e : Nat) :
    (rangeChunks content start e).flatten =
      (content.drop start).take (e + 1 - start) :=
  rangeChunksFuel_flatten (e + 1 - start) content start e (Nat.le_refl _)

theorem rangeChunksFuel_chunk_le (fuel : Nat) :
    ∀ (content : Bytes) (start e : Nat) (b : Bytes),
      b ∈ rangeChunksFuel fuel content start e → b.length ≤ 65536 := by
  induction fuel with
  | zero => intro content start e b hb; simp [rangeChunksFuel] at hb
  | succ n ih =>
    intro content start e b hb
    rw [rangeChunksFuel] at hb
    by_cases hse : start ≤ e
    · rw [if_pos hse] at hb
      by_cases hc : readAt content start (min 65536 (e - start + 1)) = []
      · rw [if_pos hc] at hb; simp at hb
      · rw [if_neg hc] at hb
        rcases List.mem_cons.mp hb with h1 | h1
        · subst h1
          simp only [readAt]
          rw [List.length_take]
          omega
        · exact ih content _ e b h1
    · rw [if_neg hse] at hb; simp at hb

theorem fullChunksFuel_flatten (fuel : Nat) :
    ∀ (content : Bytes) (pos : Nat), content.length - pos ≤ fuel →
      (fullChunksFuel fuel content pos).flatten = content.drop pos := by
  induction fuel with
  | zero =>
    intro content pos h
    have hnil : content.drop pos = [] := List.drop_eq_nil_iff.mpr (by omega)
    simp [fullChunksFuel, hnil]
  | succ n ih =>
    intro content pos h
    rw [fullChunksFuel]
    by_cases hc : readAt content pos 65536 = []
    · rw [if_pos hc]
      rcases List.take_eq_nil_iff.mp hc with h1 | h1
      · omega
      · simp [h1]
    · rw [if_neg hc]
      rw [List.flatten_cons]
      have hpos : 0 < (readAt content pos 65536).length := List.length_pos.mpr hc
      have hlen : (readAt content pos 65536).length =
          min 65536 (content.drop pos).length := by
        simp [readAt, List.length_take]
      have hdl : (content.drop pos).length = content.length - pos := by
        simp [List.length_drop]
      rw [ih content (pos + (readAt content pos 65536).length) (by omega)]
      rw [show content.drop (pos + (readAt content pos 65536).length) =
          (content.drop pos).drop (readAt content pos 65536).length by
        rw [List.drop_drop]]
      simp only [readAt]
      have hmin : ((content.drop pos).take 65536).length =
          min 65536 (content.drop pos).length := List.length_take _ _
      rw [hmin]
      rcases le_or_lt 65536 (content.drop pos).length with hle | hlt
      · rw [min_eq_left hle, List.take_append_drop]
      · rw [min_eq_right hlt.le, List.drop_length, List.append_nil]
        exact List.take_of_length_le hlt.le

/-- The chunks of `file_sender` concatenate to the whole remaining file. -/
theorem fullChunks_flatten (content : Bytes) :
    (fullChunks content 0).flatten = content := by
  have h := fullChunksFuel_flatten (content.length - 0) content 0 (Nat.le_refl _)
  simpa [fullChunks] using h

theorem fullChunksFuel_chunk_le (fuel : Nat) :
    ∀ (content : Bytes) (pos : Nat) (b : Bytes),
      b ∈ fullChunksFuel fuel content pos → b.length ≤ 65536 := by
  induction fuel with
  | zero => intro content pos b hb; simp [fullChunksFuel] at hb
  | succ n ih =>
    intro content pos b hb
    rw [fullChunksFuel] at hb
    by_cases hc : readAt content pos 65536 = []
    · rw [if_pos hc] at hb; simp at hb
    · rw [if_neg hc] at hb
      rcases List.mem_cons.mp hb with h1 | h1
      · subst h1
        simp only [readAt]
        rw [List.length_take]
        omega
      · exact ih content _ b h1

/-! ## Lemmas about the streamers and the handler -/

/-- A chunk-cache miss: the streamer opens the file, reads the whole range
(truncated at EOF), caches the blob iff it is under 1 MiB, and yields it as
one chunk. -/
theorem fileSenderRange_miss (cache : List (String × Bytes)) (name : String)
    (content : Bytes) (s e : Nat)
    (hmiss : alookup cache (chunkKey name s e) = none) :
    fileSenderRange cache name content s e =
      ⟨[(content.drop s).take (e + 1 - s)],
        if ((content.drop s).take (e + 1 - s)).length < 1024 * 1024 then
          ainsert cache (chunkKey name s e) ((content.drop s).take (e + 1 - s))
        else cache,
        true⟩ := by
  simp only [fileSenderRange, hmiss, rangeChunks_flatten]

/-- A truthy chunk-cache hit: the cached blob is yielded as a single chunk,
the cache is untouched and the file is never opened. -/
theorem fileSenderRange_hit (cache : List (String × Bytes)) (name : String)
    (content : Bytes) (s e : Nat) (cached : Bytes)
    (hhit : alookup cache (chunkKey name s e) = some cached)
    (hne : cached ≠ []) :
    fileSenderRange cache name content s e = ⟨[cached], cache, false⟩ := by
  simp only [fileSenderRange, hhit]
  rw [if_pos hne]

/-- Without conditional headers the handler always proceeds to the main
path, warm metadata entry or not. -/
theorem getVideo_plain (st : ServerState) (fs : FS) (root : PyPath)
    (req : RequestR) (hinm : req.ifNoneMatch = none)
    (hims : req.ifModifiedSince = none) :
    getVideo st fs root req = getVideoMain st fs root req := by
  unfold getVideo
  cases halookup : alookup st.metaCache (metaKey req.filename req.subfolder) with
  | none => rfl
  | some m => simp [hinm, hims, inmMatches]

/-- The 206 path: once validation and the bound checks pass, the handler
refreshes the metadata cache and hands the byte range to
`file_sender_range`. -/
theorem getVideo_range_serve (st : ServerState) (fs : FS) (root : PyPath)
    (fn : String) (sub : Option String) (file : FileEnt) (a b : List Char)
    (s eN : Nat) (rh : String)
    (hsep : hasSeparator fn = false)
    (hfile : fsLookup fs (videoPath root fn sub) = some file)
    (hrel : relativeToOk (videoPath root fn sub) root = true)
    (hrh : rh ≠ "")
    (hsplit : splitOnChar '-' (stripBytesEq rh.data) = [a, b])
    (ha : pyIntOfString (String.mk a) = some s)
    (hb : (b = [] ∧ eN = file.content.length - 1) ∨
      pyIntOfString (String.mk b) = some eN)
    (hs : s < file.content.length) (he : eN < file.content.length) :
    getVideo st fs root ⟨fn, sub, some rh, none, none⟩ =
      ⟨.ranged
          ("bytes " ++ toString s ++ "-" ++ toString (eN : Int) ++ "/" ++
            toString file.content.length)
          ((eN : Int) - (s : Int) + 1) "video/mp4"
          (fileSenderRange st.chunkCache (videoPath root fn sub).name
            file.content s eN).yielded,
        ⟨ainsert st.metaCache (metaKey fn sub)
            ⟨md5Hex (toString file.content.length ++ "-" ++ isoString file.mtime),
              file.mtime, file.content.length⟩,
          (fileSenderRange st.chunkCache (videoPath root fn sub).name
            file.content s eN).chunkCache⟩,
        (fileSenderRange st.chunkCache (videoPath root fn sub).name
          file.content s eN).openedFile⟩ := by
  rw [getVideo_plain _ _ _ _ rfl rfl]
  simp only [getVideoMain]
  rw [if_neg (by simp [hsep])]
  simp only [hfile]
  rw [if_neg (by simp [hrel])]
  rw [if_pos hrh]
  simp only [rangeBranch, hsplit, ha]
  have hN1 : 1 ≤ file.content.length := by omega
  have hend : (if b = [] then some ((file.content.length : Int) - 1)
      else (pyIntOfString (String.mk b)).map (fun n => (n : Int))) =
      some ((eN : Int)) := by
    rcases hb with ⟨hbnil, hbe⟩ | hbv
    · subst hbnil
      rw [if_pos rfl]
      subst hbe
      congr 1
      omega
    · have hbne : b ≠ [] := by
        intro hcontra
        subst hcontra
        simp [pyIntOfString] at hbv
      rw [if_neg hbne, hbv]
      rfl
  simp only [hend]
  have h416 : ¬ ((s : Int) ≥ (file.content.length : Int) ∨
      ((eN : Nat) : Int) ≥ (file.content.length : Int)) := by
    push_neg
    exact ⟨by exact_mod_cast hs, by exact_mod_cast he⟩
  rw [if_neg h416]
  rw [Int.toNat_natCast]

/-- Lookup `alookup` finds the binding just written by `ainsert`. -/
theorem alookup_ainsert {κ α : Type} [DecidableEq κ] (l : List (κ × α)) (k : κ)
    (v : α) : alookup (ainsert l k v) k = some v := by
  simp [alookup, ainsert]

/-! ## Concrete fixtures used by witnesses and counterexamples -/

/-- A concrete configured root directory (`VIDEO_DIR`). -/
def vRoot : PyPath := ⟨true, ["data", "videos"]⟩

/-- A concrete file modification time. -/
def mt0 : DateTime := ⟨2024, 1, 1, 10, 20, 30⟩

/-! ## Claims -/

/-- C1: the spec claims every joined path that normalizes outside the root
is rejected with 400, including `".."` in the subfolder.  The containment
check in the code is `Path.relative_to`, a purely lexical component-prefix
test that does not normalize `".."`, so `subfolder=".."` resolves to a file
OUTSIDE the root and is served with 200: here `/data/videos/../secret.mp4`
normalizes to `/data/secret.mp4`, not a descendant of `/data/videos`, yet
the response is a full 200 with the bytes of that file. -/
theorem c1_traversal_served_not_rejected :
    (getVideo ⟨[], []⟩ ⟨[(["data", "secret.mp4"], ⟨[9, 9, 9], mt0⟩)]⟩ vRoot
        ⟨"secret.mp4", some "..", none, none, none⟩).response =
      .full 3 "video/mp4" "public, max-age=300" "md5-3-2024-01-01T10:20:30"
        "Mon, 01 Jan 2024 10:20:30 GMT" [[9, 9, 9]] ∧
    normalizeParts (videoPath vRoot "secret.mp4" (some "..")).parts =
      ["data", "secret.mp4"] ∧
    vRoot.parts.isPrefixOf
      (normalizeParts (videoPath vRoot "secret.mp4" (some "..")).parts) =
      false := by
  decide

/-- C3: with a warm metadata entry whose etag equals the `If-None-Match`
header, the handler returns 304 with unchanged caches and no file access,
whatever the filesystem contains (so for any number of repetitions); with a
cold metadata cache the conditional headers are ignored: the result is the
same as for the request with both conditional headers absent. -/
theorem c3_conditional_semantics (st : ServerState) (fs : FS) (root : PyPath)
    (req : RequestR) (m : MetaEntry) :
    (alookup st.metaCache (metaKey req.filename req.subfolder) = some m →
      m.etag ≠ "" → req.ifNoneMatch = some m.etag →
      getVideo st fs root req = ⟨.notModified, st, false⟩) ∧
    (alookup st.metaCache (metaKey req.filename req.subfolder) = none →
      getVideo st fs root req =
        getVideo st fs root
          { req with ifNoneMatch := none, ifModifiedSince := none }) := by
  constructor
  · intro hw hne hinm
    simp only [getVideo, hw, hinm, inmMatches]
    rw [if_pos (by simp [hne])]
  · intro hcold
    cases req with
    | mk fn sub rh inm ims =>
      simp only [getVideo, getVideoMain, hcold]

/-- C3 witness. -/
theorem c3_conditional_semantics_witness :
    getVideo ⟨[("f.mp4-None", ⟨"etag1", mt0, 5⟩)], []⟩ ⟨[]⟩ vRoot
        ⟨"f.mp4", none, none, some "etag1", none⟩ =
      ⟨.notModified, ⟨[("f.mp4-None", ⟨"etag1", mt0, 5⟩)], []⟩, false⟩ ∧
    getVideo ⟨[], []⟩ ⟨[]⟩ vRoot ⟨"g.mp4", none, none, some "x", some "y"⟩ =
      getVideo ⟨[], []⟩ ⟨[]⟩ vRoot ⟨"g.mp4", none, none, none, none⟩ := by
  constructor
  · exact (c3_conditional_semantics ⟨[("f.mp4-None", ⟨"etag1", mt0, 5⟩)], []⟩
      ⟨[]⟩ vRoot ⟨"f.mp4", none, none, some "etag1", none⟩
      ⟨"etag1", mt0, 5⟩).1 (by decide) (by decide) rfl
  · exact (c3_conditional_semantics ⟨[], []⟩ ⟨[]⟩ vRoot
      ⟨"g.mp4", none, none, some "x", some "y"⟩ ⟨"", mt0, 0⟩).2 (by decide)

/-- C8 (amended): for every filename containing a path separator and every
subfolder, cache state and conditional headers, the filesystem is never
consulted (the result is invariant under changing `fs`) and the state is
left untouched; when the metadata cache is cold for the key
`"{filename}-{subfolder}"`, the request fails 400 (InvalidFilename) exactly
as the claim says; in general the outcome is one of 400, a 304 from a warm
colliding entry whose validator matches, or the `strptime` `ValueError`
escaping on a warm entry plus a malformed `If-Modified-Since` — so the
claim is wrong that no warm entry can exist for a separator-containing
filename (the key is plain string concatenation and collides with keys of
valid requests, see the counterexample), and in the malformed-header case
the warm path fails with the parse error rather than 400. -/
theorem c8_invalid_filename_400 (st : ServerState) (fs : FS) (root : PyPath)
    (req : RequestR) (hsep : hasSeparator req.filename = true) :
    (alookup st.metaCache (metaKey req.filename req.subfolder) = none →
      getVideo st fs root req = ⟨.err 400 "Invalid filename", st, false⟩) ∧
    (getVideo st fs root req = ⟨.err 400 "Invalid filename", st, false⟩ ∨
      getVideo st fs root req = ⟨.notModified, st, false⟩ ∨
      getVideo st fs root req = ⟨.exn "ValueError", st, false⟩) ∧
    (∀ fs2 : FS, getVideo st fs root req = getVideo st fs2 root req) := by
  have hmain : ∀ fz : FS,
      getVideoMain st fz root req = ⟨.err 400 "Invalid filename", st, false⟩ :=
    fun fz => by simp only [getVideoMain, hsep, if_true]
  rcases hlk : alookup st.metaCache (metaKey req.filename req.subfolder)
    with _ | m
  · have hred : ∀ fz : FS,
        getVideo st fz root req = ⟨.err 400 "Invalid filename", st, false⟩ :=
      fun fz => by
        simp only [getVideo, hlk]
        exact hmain fz
    exact ⟨fun _ => hred fs, Or.inl (hred fs),
      fun fs2 => (hred fs).trans (hred fs2).symm⟩
  · by_cases him : inmMatches req.ifNoneMatch m.etag = true
    · have hred : ∀ fz : FS,
          getVideo st fz root req = ⟨.notModified, st, false⟩ :=
        fun fz => by simp only [getVideo, hlk, him, if_true]
      refine ⟨?_, Or.inr (Or.inl (hred fs)),
        fun fs2 => (hred fs).trans (hred fs2).symm⟩
      intro hcold
      exact Option.noConfusion hcold
    · have him2 : inmMatches req.ifNoneMatch m.etag = false := by
        simpa using him
      rcases hims : req.ifModifiedSince with _ | s2
      · have hred : ∀ fz : FS,
            getVideo st fz root req = ⟨.err 400 "Invalid filename", st, false⟩ :=
          fun fz => by
            simp only [getVideo, hlk, him2, Bool.false_eq_true, if_false, hims]
            exact hmain fz
        refine ⟨fun _ => hred fs, Or.inl (hred fs),
          fun fs2 => (hred fs).trans (hred fs2).symm⟩
      · by_cases hs2 : s2 = ""
        · have hred : ∀ fz : FS,
              getVideo st fz root req = ⟨.err 400 "Invalid filename", st, false⟩ :=
            fun fz => by
              simp only [getVideo, hlk, him2, Bool.false_eq_true, if_false, hims]
              rw [if_neg (by simp [hs2])]
              exact hmain fz
          refine ⟨fun _ => hred fs, Or.inl (hred fs),
            fun fs2 => (hred fs).trans (hred fs2).symm⟩
        · rcases hp : parseRFC1123 s2 with _ | d
          · have hred : ∀ fz : FS,
                getVideo st fz root req = ⟨.exn "ValueError", st, false⟩ :=
              fun fz => by
                simp only [getVideo, hlk, him2, Bool.false_eq_true, if_false,
                  hims]
                rw [if_pos hs2]
                simp only [hp]
            refine ⟨?_, Or.inr (Or.inr (hred fs)),
              fun fs2 => (hred fs).trans (hred fs2).symm⟩
            intro hcold
            exact Option.noConfusion hcold
          · by_cases hle : m.lastModified.le d = true
            · have hred : ∀ fz : FS,
                  getVideo st fz root req = ⟨.notModified, st, false⟩ :=
                fun fz => by
                  simp only [getVideo, hlk, him2, Bool.false_eq_true, if_false,
                    hims]
                  rw [if_pos hs2]
                  simp only [hp, hle, if_true]
              refine ⟨?_, Or.inr (Or.inl (hred fs)),
                fun fs2 => (hred fs).trans (hred fs2).symm⟩
              intro hcold
              exact Option.noConfusion hcold
            · have hle2 : m.lastModified.le d = false := by
                simpa using hle
              have hred : ∀ fz : FS,
                  getVideo st fz root req =
                    ⟨.err 400 "Invalid filename", st, false⟩ :=
                fun fz => by
                  simp only [getVideo, hlk, him2, Bool.false_eq_true, if_false,
                    hims]
                  rw [if_pos hs2]
                  simp only [hp, hle2, Bool.false_eq_true, if_false]
                  exact hmain fz
              refine ⟨fun _ => hred fs, Or.inl (hred fs),
                fun fs2 => (hred fs).trans (hred fs2).symm⟩

/-- C8 witness: a cold-cache separator filename gets the 400; a warm
colliding entry with a malformed `If-Modified-Since` gives a result that is
the same under two different filesystems (no filesystem access). -/
theorem c8_invalid_filename_400_witness :
    getVideo ⟨[], []⟩ ⟨[]⟩ vRoot ⟨"a/b", some "c", none, none, none⟩ =
      ⟨.err 400 "Invalid filename", ⟨[], []⟩, false⟩ ∧
    getVideo ⟨[("a/b-c", ⟨"E", mt0, 1⟩)], []⟩ ⟨[]⟩ vRoot
        ⟨"a/b", some "c", none, none, some "garbage"⟩ =
      getVideo ⟨[("a/b-c", ⟨"E", mt0, 1⟩)], []⟩ ⟨[(["z"], ⟨[1], mt0⟩)]⟩ vRoot
        ⟨"a/b", some "c", none, none, some "garbage"⟩ := by
  constructor
  · exact (c8_invalid_filename_400 ⟨[], []⟩ ⟨[]⟩ vRoot
      ⟨"a/b", some "c", none, none, none⟩ (by decide)).1 (by decide)
  · exact (c8_invalid_filename_400 ⟨[("a/b-c", ⟨"E", mt0, 1⟩)], []⟩ ⟨[]⟩ vRoot
      ⟨"a/b", some "c", none, none, some "garbage"⟩ (by decide)).2.2
      ⟨[(["z"], ⟨[1], mt0⟩)]⟩

/-- C8 counterexample to the claim as stated: a warm metadata entry CAN
exist for a separator-containing filename.  A first, valid request with
`filename="x"`, `subfolder="a/b-c"` stores a metadata entry under the key
`"x-a/b-c"`; a second request with `filename="x-a/b"` (which contains a
separator) and `subfolder="c"` computes the SAME key, finds the warm entry,
and its matching `If-None-Match` returns 304 — not the 400 the claim
requires for every separator-containing filename. -/
theorem c8_warm_entry_counterexample :
    hasSeparator "x-a/b" = true ∧
    (getVideo
        (getVideo ⟨[], []⟩ ⟨[(["data", "videos", "a", "b-c", "x"], ⟨[7, 7], mt0⟩)]⟩
          vRoot ⟨"x", some "a/b-c", none, none, none⟩).state
        ⟨[(["data", "videos", "a", "b-c", "x"], ⟨[7, 7], mt0⟩)]⟩ vRoot
        ⟨"x-a/b", some "c", none, some "md5-2-2024-01-01T10:20:30", none⟩).response =
      .notModified := by
  decide

/-- C7: with a warm metadata entry and a non-matching (or absent)
`If-None-Match`, an `If-Modified-Since` value that parses in the fixed
RFC-1123 format and compares `>=` the stored last-modified yields 304;
a non-conforming value makes the whole request fail with the parse
error (`ValueError` escaping the handler) instead of being ignored. -/
theorem c7_if_modified_since (st : ServerState) (fs : FS) (root : PyPath)
    (req : RequestR) (m : MetaEntry) (s : String)
    (hw : alookup st.metaCache (metaKey req.filename req.subfolder) = some m)
    (hinm : inmMatches req.ifNoneMatch m.etag = false)
    (hims : req.ifModifiedSince = some s) (hne : s ≠ "") :
    (∀ d, parseRFC1123 s = some d → m.lastModified.le d = true →
      getVideo st fs root req = ⟨.notModified, st, false⟩) ∧
    (parseRFC1123 s = none →
      getVideo st fs root req = ⟨.exn "ValueError", st, false⟩) := by
  constructor
  · intro d hd hle
    simp only [getVideo, hw, hinm, hims, Bool.false_eq_true, if_false]
    rw [if_pos hne]
    simp only [hd, hle, if_true]
  · intro hd
    simp only [getVideo, hw, hinm, hims, Bool.false_eq_true, if_false]
    rw [if_pos hne]
    simp only [hd]

/-- C7 witness: a case-variant, single-digit-field value parses (as in
Python) and yields 304; a well-shaped but calendar-invalid date is a parse
failure (the `datetime` constructor raises) and fails the request. -/
theorem c7_if_modified_since_witness :
    getVideo ⟨[("f.mp4-None", ⟨"E", mt0, 3⟩)], []⟩ ⟨[]⟩ vRoot
        ⟨"f.mp4", none, none, none, some "tue, 2 jan 2024 0:0:0 gmt"⟩ =
      ⟨.notModified, ⟨[("f.mp4-None", ⟨"E", mt0, 3⟩)], []⟩, false⟩ ∧
    getVideo ⟨[("f.mp4-None", ⟨"E", mt0, 3⟩)], []⟩ ⟨[]⟩ vRoot
        ⟨"f.mp4", none, none, none, some "Fri, 31 Feb 2024 00:00:00 GMT"⟩ =
      ⟨.exn "ValueError", ⟨[("f.mp4-None", ⟨"E", mt0, 3⟩)], []⟩, false⟩ := by
  constructor
  · exact (c7_if_modified_since ⟨[("f.mp4-None", ⟨"E", mt0, 3⟩)], []⟩ ⟨[]⟩ vRoot
      ⟨"f.mp4", none, none, none, some "tue, 2 jan 2024 0:0:0 gmt"⟩
      ⟨"E", mt0, 3⟩ "tue, 2 jan 2024 0:0:0 gmt" (by decide) (by decide) rfl
      (by decide)).1 ⟨2024, 1, 2, 0, 0, 0⟩ (by decide) (by decide)
  · exact (c7_if_modified_since ⟨[("f.mp4-None", ⟨"E", mt0, 3⟩)], []⟩ ⟨[]⟩ vRoot
      ⟨"f.mp4", none, none, none, some "Fri, 31 Feb 2024 00:00:00 GMT"⟩
      ⟨"E", mt0, 3⟩ "Fri, 31 Feb 2024 00:00:00 GMT" (by decide) (by decide) rfl
      (by decide)).2 (by decide)

/-- C9: a request without a `Range` header for a valid existing file
returns 200 with `Content-Length` equal to the file size, `Content-Type`
video/mp4, the etag and the RFC-1123 `Last-Modified` rendering of the
mtime of the file, and a streamed body whose chunks are each at most
64 KiB and whose concatenation is exactly the contents of the file. -/
theorem c9_full_fetch (st : ServerState) (fs : FS) (root : PyPath)
    (fn : String) (sub : Option String) (file : FileEnt)
    (hsep : hasSeparator fn = false)
    (hfile : fsLookup fs (videoPath root fn sub) = some file)
    (hrel : relativeToOk (videoPath root fn sub) root = true) :
    (getVideo st fs root ⟨fn, sub, none, none, none⟩).response =
      .full file.content.length "video/mp4" "public, max-age=300"
        (md5Hex (toString file.content.length ++ "-" ++ isoString file.mtime))
        (formatRFC1123 file.mtime) (fullChunks file.content 0) ∧
    (fullChunks file.content 0).flatten = file.content ∧
    (∀ b ∈ fullChunks file.content 0, b.length ≤ 65536) := by
  refine ⟨?_, fullChunks_flatten _, ?_⟩
  · rw [getVideo_plain _ _ _ _ rfl rfl]
    simp only [getVideoMain]
    rw [if_neg (by simp [hsep])]
    simp only [hfile]
    rw [if_neg (by simp [hrel])]
    rfl
  · intro b hb
    exact fullChunksFuel_chunk_le _ _ _ _ hb

/-- C9 witness. -/
theorem c9_full_fetch_witness :
    (getVideo ⟨[], []⟩ ⟨[(["data", "videos", "a.mp4"], ⟨[1, 2, 3], mt0⟩)]⟩ vRoot
        ⟨"a.mp4", none, none, none, none⟩).response =
      .full 3 "video/mp4" "public, max-age=300" "md5-3-2024-01-01T10:20:30"
        "Mon, 01 Jan 2024 10:20:30 GMT" [[1, 2, 3]] := by
  have h := (c9_full_fetch ⟨[], []⟩ ⟨[(["data", "videos", "a.mp4"], ⟨[1, 2, 3], mt0⟩)]⟩
    vRoot "a.mp4" none ⟨[1, 2, 3], mt0⟩ (by decide) (by decide) (by decide)).1
  rw [h]
  decide

/-- C5: on a chunk-cache miss the range streamer opens the file, reads in
at-most-64-KiB increments until the range is covered or EOF cuts it short
(the accumulated blob is `content[start : end + 1]`, truncated at EOF),
yields the whole blob as a single chunk regardless of caching, and stores
the blob under `"{filename}-{start}-{end}"` if and only if its length is
under 1 MiB. -/
theorem c5_range_streamer_miss (cache : List (String × Bytes)) (name : String)
    (content : Bytes) (s e : Nat)
    (hmiss : alookup cache (chunkKey name s e) = none) :
    (fileSenderRange cache name content s e).yielded =
      [(content.drop s).take (e + 1 - s)] ∧
    (fileSenderRange cache name content s e).openedFile = true ∧
    (∀ b ∈ rangeChunks content s e, b.length ≤ 65536) ∧
    (alookup (fileSenderRange cache name content s e).chunkCache
        (chunkKey name s e) = some ((content.drop s).take (e + 1 - s)) ↔
      ((content.drop s).take (e + 1 - s)).length < 1024 * 1024) := by
  rw [fileSenderRange_miss cache name content s e hmiss]
  refine ⟨rfl, rfl, ?_, ?_⟩
  · intro b hb
    exact rangeChunksFuel_chunk_le _ _ _ _ _ hb
  · constructor
    · intro hsome
      by_contra hbig
      rw [if_neg hbig] at hsome
      rw [hmiss] at hsome
      exact Option.noConfusion hsome
    · intro hsmall
      rw [if_pos hsmall]
      exact alookup_ainsert _ _ _

/-- C5 witness. -/
theorem c5_range_streamer_miss_witness :
    (fileSenderRange [] "a.mp4" [1, 2, 3, 4, 5, 6, 7, 8] 2 5).yielded =
      [[3, 4, 5, 6]] ∧
    (fileSenderRange [] "a.mp4" [1, 2, 3, 4, 5, 6, 7, 8] 2 5).openedFile = true ∧
    alookup (fileSenderRange [] "a.mp4" [1, 2, 3, 4, 5, 6, 7, 8] 2 5).chunkCache
      "a.mp4-2-5" = some [3, 4, 5, 6] := by
  have h := c5_range_streamer_miss [] "a.mp4" [1, 2, 3, 4, 5, 6, 7, 8] 2 5
    (by decide)
  refine ⟨by rw [h.1]; decide, h.2.1, ?_⟩
  have h4 := h.2.2.2.mpr (by decide)
  rw [show (("a.mp4-2-5" : String)) = chunkKey "a.mp4" 2 5 from by decide]
  rw [h4]
  decide

/-- C4: for a parsed range `bytes=<start>-<end?>` (an omitted end defaults
to `fileSize - 1`): if `start >= fileSize` or `end >= fileSize` the request
fails with 416; otherwise the response is 206 with
`Content-Range: bytes {start}-{end}/{fileSize}`,
`Content-Length = end - start + 1`, `Content-Type: video/mp4`, and a body
that is exactly bytes `start..end` of the file, in one chunk. -/
theorem c4_range_correctness (st : ServerState) (fs : FS) (root : PyPath)
    (fn : String) (sub : Option String) (file : FileEnt) (a b : List Char)
    (s eN : Nat) (rh : String)
    (hsep : hasSeparator fn = false)
    (hfile : fsLookup fs (videoPath root fn sub) = some file)
    (hrel : relativeToOk (videoPath root fn sub) root = true)
    (hrh : rh ≠ "")
    (hsplit : splitOnChar '-' (stripBytesEq rh.data) = [a, b])
    (ha : pyIntOfString (String.mk a) = some s)
    (hb : (b = [] ∧ eN = file.content.length - 1) ∨
      pyIntOfString (String.mk b) = some eN)
    (hchunk : alookup st.chunkCache
      (chunkKey (videoPath root fn sub).name s eN) = none) :
    ((s ≥ file.content.length ∨ eN ≥ file.content.length) →
      (getVideo st fs root ⟨fn, sub, some rh, none, none⟩).response =
        .err 416 "Requested range not satisfiable") ∧
    (s < file.content.length → eN < file.content.length →
      (getVideo st fs root ⟨fn, sub, some rh, none, none⟩).response =
        .ranged
          ("bytes " ++ toString s ++ "-" ++ toString (eN : Int) ++ "/" ++
            toString file.content.length)
          ((eN : Int) - (s : Int) + 1) "video/mp4"
          [(file.content.drop s).take (eN + 1 - s)]) := by
  constructor
  · intro h416n
    rw [getVideo_plain _ _ _ _ rfl rfl]
    simp only [getVideoMain]
    rw [if_neg (by simp [hsep])]
    simp only [hfile]
    rw [if_neg (by simp [hrel])]
    rw [if_pos hrh]
    simp only [rangeBranch, hsplit, ha]
    rcases hb with ⟨hbnil, hbe⟩ | hbv
    · have hend : (if b = [] then some ((file.content.length : Int) - 1)
          else (pyIntOfString (String.mk b)).map (fun n => (n : Int))) =
          some ((file.content.length : Int) - 1) := if_pos hbnil
      simp only [hend]
      have hcond : (s : Int) ≥ (file.content.length : Int) ∨
          (file.content.length : Int) - 1 ≥ (file.content.length : Int) := by
        rcases h416n with h1 | h1
        · exact Or.inl (by exact_mod_cast h1)
        · left
          have h0 : file.content.length = 0 := by omega
          rw [h0]
          simp
      rw [if_pos hcond]
    · have hbne : b ≠ [] := by
        intro hcontra
        subst hcontra
        simp [pyIntOfString] at hbv
      have hend : (if b = [] then some ((file.content.length : Int) - 1)
          else (pyIntOfString (String.mk b)).map (fun n => (n : Int))) =
          some ((eN : Int)) := by
        rw [if_neg hbne, hbv]
        rfl
      simp only [hend]
      have hcond : (s : Int) ≥ (file.content.length : Int) ∨
          ((eN : Nat) : Int) ≥ (file.content.length : Int) := by
        rcases h416n with h1 | h1
        · exact Or.inl (by exact_mod_cast h1)
        · exact Or.inr (by exact_mod_cast h1)
      rw [if_pos hcond]
  · intro hs he
    rw [getVideo_range_serve st fs root fn sub file a b s eN rh hsep hfile hrel
      hrh hsplit ha hb hs he]
    rw [fileSenderRange_miss st.chunkCache (videoPath root fn sub).name
      file.content s eN hchunk]

/-- C4 witness. -/
theorem c4_range_correctness_witness :
    (getVideo ⟨[], []⟩ ⟨[(["data", "videos", "a.mp4"],
        ⟨[1, 2, 3, 4, 5, 6, 7, 8, 9, 10], mt0⟩)]⟩ vRoot
      ⟨"a.mp4", none, some "bytes=2-5", none, none⟩).response =
      .ranged "bytes 2-5/10" 4 "video/mp4" [[3, 4, 5, 6]] ∧
    (getVideo ⟨[], []⟩ ⟨[(["data", "videos", "a.mp4"],
        ⟨[1, 2, 3, 4, 5, 6, 7, 8, 9, 10], mt0⟩)]⟩ vRoot
      ⟨"a.mp4", none, some "bytes=10-", none, none⟩).response =
      .err 416 "Requested range not satisfiable" := by
  constructor
  · have h := (c4_range_correctness ⟨[], []⟩
      ⟨[(["data", "videos", "a.mp4"], ⟨[1, 2, 3, 4, 5, 6, 7, 8, 9, 10], mt0⟩)]⟩
      vRoot "a.mp4" none ⟨[1, 2, 3, 4, 5, 6, 7, 8, 9, 10], mt0⟩ ['2'] ['5'] 2 5
      "bytes=2-5" (by decide) (by decide) (by decide) (by decide) (by decide)
      (by decide) (Or.inr (by decide)) (by decide)).2 (by decide) (by decide)
    rw [h]
    decide
  · exact (c4_range_correctness ⟨[], []⟩
      ⟨[(["data", "videos", "a.mp4"], ⟨[1, 2, 3, 4, 5, 6, 7, 8, 9, 10], mt0⟩)]⟩
      vRoot "a.mp4" none ⟨[1, 2, 3, 4, 5, 6, 7, 8, 9, 10], mt0⟩ ['1', '0'] [] 10 9
      "bytes=10-" (by decide) (by decide) (by decide) (by decide) (by decide)
      (by decide) (Or.inl (by decide)) (by decide)).1 (by decide)

/-- C10: a range request with `start > end` (both below the file size) is
not rejected: the response is 206 with `Content-Length = end - start + 1`
(zero or negative), the read loop never runs so the body is the single
empty blob, and that empty blob is stored in the chunk cache under
`"{filename}-{start}-{end}"`. -/
theorem c10_inverted_range (st : ServerState) (fs : FS) (root : PyPath)
    (fn : String) (sub : Option String) (file : FileEnt) (a b : List Char)
    (s eN : Nat) (rh : String)
    (hsep : hasSeparator fn = false)
    (hfile : fsLookup fs (videoPath root fn sub) = some file)
    (hrel : relativeToOk (videoPath root fn sub) root = true)
    (hrh : rh ≠ "")
    (hsplit : splitOnChar '-' (stripBytesEq rh.data) = [a, b])
    (ha : pyIntOfString (String.mk a) = some s)
    (hbv : pyIntOfString (String.mk b) = some eN)
    (hchunk : alookup st.chunkCache
      (chunkKey (videoPath root fn sub).name s eN) = none)
    (hgt : eN < s) (hs : s < file.content.length)
    (he : eN < file.content.length) :
    (getVideo st fs root ⟨fn, sub, some rh, none, none⟩).response =
      .ranged
        ("bytes " ++ toString s ++ "-" ++ toString (eN : Int) ++ "/" ++
          toString file.content.length)
        ((eN : Int) - (s : Int) + 1) "video/mp4" [[]] ∧
    ((eN : Int) - (s : Int) + 1 ≤ 0) ∧
    alookup (getVideo st fs root ⟨fn, sub, some rh, none, none⟩).state.chunkCache
      (chunkKey (videoPath root fn sub).name s eN) = some [] := by
  have hserve := getVideo_range_serve st fs root fn sub file a b s eN rh hsep
    hfile hrel hrh hsplit ha (Or.inr hbv) hs he
  have hm := fileSenderRange_miss st.chunkCache (videoPath root fn sub).name
    file.content s eN hchunk
  have hzero : eN + 1 - s = 0 := by omega
  have hblob : (file.content.drop s).take (eN + 1 - s) = [] := by
    rw [hzero]
    rfl
  rw [hblob] at hm
  refine ⟨?_, by omega, ?_⟩
  · rw [hserve, hm]
  · rw [hserve, hm]
    dsimp only
    rw [if_pos (by decide)]
    exact alookup_ainsert _ _ _

/-- C10 witness. -/
theorem c10_inverted_range_witness :
    (getVideo ⟨[], []⟩ ⟨[(["data", "videos", "a.mp4"],
        ⟨[1, 2, 3, 4, 5, 6, 7, 8, 9, 10], mt0⟩)]⟩ vRoot
      ⟨"a.mp4", none, some "bytes=5-3", none, none⟩).response =
      .ranged "bytes 5-3/10" (-1) "video/mp4" [[]] ∧
    alookup (getVideo ⟨[], []⟩ ⟨[(["data", "videos", "a.mp4"],
        ⟨[1, 2, 3, 4, 5, 6, 7, 8, 9, 10], mt0⟩)]⟩ vRoot
      ⟨"a.mp4", none, some "bytes=5-3", none, none⟩).state.chunkCache
      "a.mp4-5-3" = some [] := by
  have h := c10_inverted_range ⟨[], []⟩
    ⟨[(["data", "videos", "a.mp4"], ⟨[1, 2, 3, 4, 5, 6, 7, 8, 9, 10], mt0⟩)]⟩
    vRoot "a.mp4" none ⟨[1, 2, 3, 4, 5, 6, 7, 8, 9, 10], mt0⟩ ['5'] ['3'] 5 3
    "bytes=5-3" (by decide) (by decide) (by decide) (by decide) (by decide)
    (by decide) (by decide) (by decide) (by decide) (by decide) (by decide)
  refine ⟨?_, ?_⟩
  · rw [h.1]
    decide
  · have h3 := h.2.2
    rw [show ("a.mp4-5-3" : String) = chunkKey (videoPath vRoot "a.mp4" none).name 5 3
      from by decide]
    exact h3

/-- C2: the chunk-cache key omits the subfolder, so a second ranged request
with the same filename, start and end but a DIFFERENT subfolder (a distinct
file on disk), issued while the first blob (under 1 MiB) is still cached,
is served the bytes of the first file without its own file ever being opened —
while `Content-Range` still advertises the size of the second file. -/
theorem c2_chunk_cache_subfolder_leak (st0 : ServerState) (fs : FS)
    (root : PyPath) (fn : String) (sub1 sub2 : Option String) (f1 f2 : FileEnt)
    (a b : List Char) (s eN : Nat) (rh : String)
    (hsep : hasSeparator fn = false)
    (hfile1 : fsLookup fs (videoPath root fn sub1) = some f1)
    (hrel1 : relativeToOk (videoPath root fn sub1) root = true)
    (hfile2 : fsLookup fs (videoPath root fn sub2) = some f2)
    (hrel2 : relativeToOk (videoPath root fn sub2) root = true)
    (hrh : rh ≠ "")
    (hsplit : splitOnChar '-' (stripBytesEq rh.data) = [a, b])
    (ha : pyIntOfString (String.mk a) = some s)
    (hbv : pyIntOfString (String.mk b) = some eN)
    (hname1 : (videoPath root fn sub1).name = fn)
    (hname2 : (videoPath root fn sub2).name = fn)
    (hchunk : alookup st0.chunkCache (chunkKey fn s eN) = none)
    (hle : s ≤ eN) (he1 : eN < f1.content.length) (he2 : eN < f2.content.length)
    (hsize : ((f1.content.drop s).take (eN + 1 - s)).length < 1024 * 1024) :
    ((getVideo st0 fs root ⟨fn, sub1, some rh, none, none⟩).response =
      .ranged
        ("bytes " ++ toString s ++ "-" ++ toString (eN : Int) ++ "/" ++
          toString f1.content.length)
        ((eN : Int) - (s : Int) + 1) "video/mp4"
        [(f1.content.drop s).take (eN + 1 - s)]) ∧
    ((getVideo (getVideo st0 fs root ⟨fn, sub1, some rh, none, none⟩).state fs
        root ⟨fn, sub2, some rh, none, none⟩).response =
      .ranged
        ("bytes " ++ toString s ++ "-" ++ toString (eN : Int) ++ "/" ++
          toString f2.content.length)
        ((eN : Int) - (s : Int) + 1) "video/mp4"
        [(f1.content.drop s).take (eN + 1 - s)]) ∧
    (getVideo (getVideo st0 fs root ⟨fn, sub1, some rh, none, none⟩).state fs
      root ⟨fn, sub2, some rh, none, none⟩).openedFile = false := by
  have hs1 : s < f1.content.length := by omega
  have hs2 : s < f2.content.length := by omega
  have hserve1 := getVideo_range_serve st0 fs root fn sub1 f1 a b s eN rh hsep
    hfile1 hrel1 hrh hsplit ha (Or.inr hbv) hs1 he1
  have hm1 := fileSenderRange_miss st0.chunkCache (videoPath root fn sub1).name
    f1.content s eN (by rw [hname1]; exact hchunk)
  have hblobne : (f1.content.drop s).take (eN + 1 - s) ≠ [] := by
    have hlen : ((f1.content.drop s).take (eN + 1 - s)).length =
        min (eN + 1 - s) (f1.content.length - s) := by
      rw [List.length_take, List.length_drop]
    intro hcontra
    rw [hcontra] at hlen
    simp only [List.length_nil] at hlen
    omega
  have hcache1 : (getVideo st0 fs root ⟨fn, sub1, some rh, none, none⟩).state.chunkCache =
      ainsert st0.chunkCache (chunkKey fn s eN)
        ((f1.content.drop s).take (eN + 1 - s)) := by
    rw [hserve1, hm1]
    dsimp only
    rw [if_pos hsize, hname1]
  have hserve2 := getVideo_range_serve
    (getVideo st0 fs root ⟨fn, sub1, some rh, none, none⟩).state fs root fn sub2
    f2 a b s eN rh hsep hfile2 hrel2 hrh hsplit ha (Or.inr hbv) hs2 he2
  have hhit := fileSenderRange_hit
    (getVideo st0 fs root ⟨fn, sub1, some rh, none, none⟩).state.chunkCache
    (videoPath root fn sub2).name f2.content s eN
    ((f1.content.drop s).take (eN + 1 - s))
    (by rw [hcache1, hname2]; exact alookup_ainsert _ _ _) hblobne
  refine ⟨?_, ?_, ?_⟩
  · rw [hserve1, hm1]
  · rw [hserve2, hhit]
  · rw [hserve2, hhit]

/-- C2 witness: the two subfolders hold different bytes; the second request
returns the slice `[2, 3]` of the first file, not its own `[6, 7]`. -/
theorem c2_chunk_cache_subfolder_leak_witness :
    ((getVideo (getVideo ⟨[], []⟩ ⟨[
        (["data", "videos", "s1", "v.mp4"], ⟨[1, 2, 3, 4], mt0⟩),
        (["data", "videos", "s2", "v.mp4"], ⟨[5, 6, 7, 8], mt0⟩)]⟩ vRoot
        ⟨"v.mp4", some "s1", some "bytes=1-2", none, none⟩).state
      ⟨[(["data", "videos", "s1", "v.mp4"], ⟨[1, 2, 3, 4], mt0⟩),
        (["data", "videos", "s2", "v.mp4"], ⟨[5, 6, 7, 8], mt0⟩)]⟩ vRoot
      ⟨"v.mp4", some "s2", some "bytes=1-2", none, none⟩).response =
      .ranged "bytes 1-2/4" 2 "video/mp4" [[2, 3]]) ∧
    ([2, 3] : Bytes) ≠ [6, 7] := by
  constructor
  · have h := (c2_chunk_cache_subfolder_leak ⟨[], []⟩ ⟨[
      (["data", "videos", "s1", "v.mp4"], ⟨[1, 2, 3, 4], mt0⟩),
      (["data", "videos", "s2", "v.mp4"], ⟨[5, 6, 7, 8], mt0⟩)]⟩ vRoot
      "v.mp4" (some "s1") (some "s2") ⟨[1, 2, 3, 4], mt0⟩ ⟨[5, 6, 7, 8], mt0⟩
      ['1'] ['2'] 1 2 "bytes=1-2" (by decide) (by decide) (by decide)
      (by decide) (by decide) (by decide) (by decide) (by decide) (by decide)
      (by decide) (by decide) (by decide) (by decide) (by decide) (by decide)
      (by decide)).2.1
    rw [h]
    decide
  · decide

/-- C6: two identical range requests (same filename, subfolder, start, end)
with the range under 1 MiB return byte-identical bodies; the second is
served from the chunk cache as one single chunk without opening the file. -/
theorem c6_chunk_cache_transparency (st0 : ServerState) (fs : FS)
    (root : PyPath) (fn : String) (sub : Option String) (file : FileEnt)
    (a b : List Char) (s eN : Nat) (rh : String)
    (hsep : hasSeparator fn = false)
    (hfile : fsLookup fs (videoPath root fn sub) = some file)
    (hrel : relativeToOk (videoPath root fn sub) root = true)
    (hrh : rh ≠ "")
    (hsplit : splitOnChar '-' (stripBytesEq rh.data) = [a, b])
    (ha : pyIntOfString (String.mk a) = some s)
    (hbv : pyIntOfString (String.mk b) = some eN)
    (hname : (videoPath root fn sub).name = fn)
    (hchunk : alookup st0.chunkCache (chunkKey fn s eN) = none)
    (hle : s ≤ eN) (he : eN < file.content.length)
    (hsize : ((file.content.drop s).take (eN + 1 - s)).length < 1024 * 1024) :
    ((getVideo st0 fs root ⟨fn, sub, some rh, none, none⟩).response =
      .ranged
        ("bytes " ++ toString s ++ "-" ++ toString (eN : Int) ++ "/" ++
          toString file.content.length)
        ((eN : Int) - (s : Int) + 1) "video/mp4"
        [(file.content.drop s).take (eN + 1 - s)]) ∧
    ((getVideo (getVideo st0 fs root ⟨fn, sub, some rh, none, none⟩).state fs
        root ⟨fn, sub, some rh, none, none⟩).response =
      (getVideo st0 fs root ⟨fn, sub, some rh, none, none⟩).response) ∧
    (getVideo (getVideo st0 fs root ⟨fn, sub, some rh, none, none⟩).state fs
      root ⟨fn, sub, some rh, none, none⟩).openedFile = false := by
  have hs1 : s < file.content.length := by omega
  have hserve1 := getVideo_range_serve st0 fs root fn sub file a b s eN rh hsep
    hfile hrel hrh hsplit ha (Or.inr hbv) hs1 he
  have hm1 := fileSenderRange_miss st0.chunkCache (videoPath root fn sub).name
    file.content s eN (by rw [hname]; exact hchunk)
  have hblobne : (file.content.drop s).take (eN + 1 - s) ≠ [] := by
    have hlen : ((file.content.drop s).take (eN + 1 - s)).length =
        min (eN + 1 - s) (file.content.length - s) := by
      rw [List.length_take, List.length_drop]
    intro hcontra
    rw [hcontra] at hlen
    simp only [List.length_nil] at hlen
    omega
  have hcache1 : (getVideo st0 fs root ⟨fn, sub, some rh, none, none⟩).state.chunkCache =
      ainsert st0.chunkCache (chunkKey fn s eN)
        ((file.content.drop s).take (eN + 1 - s)) := by
    rw [hserve1, hm1]
    dsimp only
    rw [if_pos hsize, hname]
  have hserve2 := getVideo_range_serve
    (getVideo st0 fs root ⟨fn, sub, some rh, none, none⟩).state fs root fn sub
    file a b s eN rh hsep hfile hrel hrh hsplit ha (Or.inr hbv) hs1 he
  have hhit := fileSenderRange_hit
    (getVideo st0 fs root ⟨fn, sub, some rh, none, none⟩).state.chunkCache
    (videoPath root fn sub).name file.content s eN
    ((file.content.drop s).take (eN + 1 - s))
    (by rw [hcache1, hname]; exact alookup_ainsert _ _ _) hblobne
  refine ⟨?_, ?_, ?_⟩
  · rw [hserve1, hm1]
  · rw [hserve2, hhit, hserve1, hm1]
  · rw [hserve2, hhit]

/-- C6 witness. -/
theorem c6_chunk_cache_transparency_witness :
    ((getVideo (getVideo ⟨[], []⟩
        ⟨[(["data", "videos", "a.mp4"], ⟨[1, 2, 3, 4], mt0⟩)]⟩ vRoot
        ⟨"a.mp4", none, some "bytes=1-2", none, none⟩).state
      ⟨[(["data", "videos", "a.mp4"], ⟨[1, 2, 3, 4], mt0⟩)]⟩ vRoot
      ⟨"a.mp4", none, some "bytes=1-2", none, none⟩).response =
      .ranged "bytes 1-2/4" 2 "video/mp4" [[2, 3]]) ∧
    (getVideo (getVideo ⟨[], []⟩
        ⟨[(["data", "videos", "a.mp4"], ⟨[1, 2, 3, 4], mt0⟩)]⟩ vRoot
        ⟨"a.mp4", none, some "bytes=1-2", none, none⟩).state
      ⟨[(["data", "videos", "a.mp4"], ⟨[1, 2, 3, 4], mt0⟩)]⟩ vRoot
      ⟨"a.mp4", none, some "bytes=1-2", none, none⟩).openedFile = false := by
  have h := c6_chunk_cache_transparency ⟨[], []⟩
    ⟨[(["data", "videos", "a.mp4"], ⟨[1, 2, 3, 4], mt0⟩)]⟩ vRoot "a.mp4" none
    ⟨[1, 2, 3, 4], mt0⟩ ['1'] ['2'] 1 2 "bytes=1-2" (by decide) (by decide)
    (by decide) (by decide) (by decide) (by decide) (by decide) (by decide)
    (by decide) (by decide) (by decide) (by decide)
  refine ⟨?_, h.2.2⟩
  rw [h.2.1, h.1]
  decide

end Stream
